import Mathlib

/-!
Verification development for the esbuild-webserver core (pkg/server.go):
endpoint parsing, the reverse-proxy director, the static filesystem
handler with its path-traversal guard, and the not-found fallback handler.
Strings are embedded as `List Char`; the filesystem is an association list
from absolute paths to entries.
-/

namespace EsbuildWebserver

/-- Coerce a Lean string literal to the `List Char` representation used
throughout this development. -/
def str (s : String) : List Char := s.data

/-- Go `strings.SplitAfterN(s, sep, 2)` for a one-character separator,
presented as an `Option`: `none` when `sep` does not occur in `s` (Go then
returns a one-element slice, so indexing `split[1]` panics), and
`some (a, b)` where `a` is the text up to and including the first `sep`
and `b` is the remainder. -/
def splitAfterFirst (sep : Char) : List Char → Option (List Char × List Char)
  | [] => none
  | c :: rest =>
    if c = sep then some ([c], rest)
    else
      match splitAfterFirst sep rest with
      | none => none
      | some (a, b) => some (c :: a, b)

/-- Go `strings.Replace(s, t, "", 1)` for a one-character target: remove
the first occurrence of `t` from `s`, if any. -/
def replaceFirst (t : Char) : List Char → List Char
  | [] => []
  | c :: rest => if c = t then rest else c :: replaceFirst t rest

/-- Split a path into its `/`-separated segments (Go `path.Clean`'s
segment view; empty segments arise from repeated separators). -/
def splitSegs : List Char → List (List Char)
  | [] => [[]]
  | c :: rest =>
    if c = '/' then [] :: splitSegs rest
    else
      match splitSegs rest with
      | [] => [[c]]
      | s :: ss => (c :: s) :: ss

/-- The segment-stack core of Go `path.Clean`: empty and `.` segments are
dropped; `..` pops the previous segment unless the stack is empty or
already ends in `..`; at the root (`rooted = true`) a `..` with an empty
stack is discarded. The first argument is the output stack, most recent
segment first. -/
def cleanSegs (rooted : Bool) : List (List Char) → List (List Char) → List (List Char)
  | stack, [] => stack.reverse
  | stack, seg :: rest =>
    if seg = [] ∨ seg = ['.'] then cleanSegs rooted stack rest
    else if seg = ['.', '.'] then
      match stack with
      | [] => if rooted then cleanSegs rooted [] rest else cleanSegs rooted [seg] rest
      | top :: below =>
        if top = ['.', '.'] then cleanSegs rooted (seg :: stack) rest
        else cleanSegs rooted below rest
    else cleanSegs rooted (seg :: stack) rest

/-- Join segments back with `/` separators. -/
def joinSegs : List (List Char) → List Char
  | [] => []
  | [s] => s
  | s :: rest => s ++ '/' :: joinSegs rest

/-- Go `path.Clean` (lexical path normalization): on the empty string
return `.`; otherwise drop empty and `.` segments, resolve `..` against
the preceding segment, never above the root of a rooted path, and return
`/` or `.` when everything cancels. On Unix `filepath.Clean` coincides
with this. -/
def goPathClean (p : List Char) : List Char :=
  if p = [] then ['.']
  else
    let rooted := p.head? = some '/'
    let segs := cleanSegs rooted [] (splitSegs p)
    if rooted then '/' :: joinSegs segs
    else if segs = [] then ['.']
    else joinSegs segs

/-- Go `path/filepath.Join` on Unix: drop empty elements, join with `/`,
and clean the result (all elements empty gives the empty string; dropping
interior empty elements agrees with Go because `Clean` collapses the
duplicate separators they would produce). -/
def goFilepathJoin (elems : List (List Char)) : List Char :=
  let ne := elems.filter (fun e => e ≠ [])
  if ne = [] then [] else goPathClean (joinSegs ne)

/-- Go `path/filepath.Abs` on Unix, with the working directory `cwd` made
explicit: an absolute path is cleaned, a relative one is joined onto
`cwd`. -/
def goFilepathAbs (cwd p : List Char) : List Char :=
  if p.head? = some '/' then goPathClean p else goFilepathJoin [cwd, p]

/-- Helper for `goFilepathExt`: walk the reversed path accumulating the
suffix until the final `.` of the last element (returning it, dot
included) or a separator (no extension). -/
def extFromRev : List Char → List Char → List Char
  | [], _ => []
  | c :: rest, acc =>
    if c = '/' then []
    else if c = '.' then c :: acc
    else extFromRev rest (c :: acc)

/-- Go `path/filepath.Ext`: the suffix of the final path element starting
at its final dot, including the dot; empty when there is no dot. -/
def goFilepathExt (p : List Char) : List Char := extFromRev p.reverse []

/-- ASCII lower-casing of a character, as Go's `mime` package applies to
extension lookups. -/
def asciiLower (c : Char) : Char :=
  if 'A' ≤ c ∧ c ≤ 'Z' then Char.ofNat (c.toNat + 32) else c

/-- The builtin extension table of Go's `mime` package (keys are
lower-case and carry the leading dot). Entries loaded from the operating
system's mime.types files are not modelled; they use the same
single-dot key shape, so lookups with other shapes miss them as well. -/
def goMimeBuiltin : List (List Char × List Char) :=
  [ (str ".avif", str "image/avif")
  , (str ".css", str "text/css; charset=utf-8")
  , (str ".gif", str "image/gif")
  , (str ".htm", str "text/html; charset=utf-8")
  , (str ".html", str "text/html; charset=utf-8")
  , (str ".jpeg", str "image/jpeg")
  , (str ".jpg", str "image/jpeg")
  , (str ".js", str "text/javascript; charset=utf-8")
  , (str ".json", str "application/json")
  , (str ".mjs", str "text/javascript; charset=utf-8")
  , (str ".pdf", str "application/pdf")
  , (str ".png", str "image/png")
  , (str ".svg", str "image/svg+xml")
  , (str ".wasm", str "application/wasm")
  , (str ".webp", str "image/webp")
  , (str ".xml", str "text/xml; charset=utf-8") ]

/-- Association-list lookup over character-list keys. -/
def lookupStr (k : List Char) : List (List Char × List Char) → Option (List Char)
  | [] => none
  | (k', v) :: rest => if k' = k then some v else lookupStr k rest

/-- Go `mime.TypeByExtension`: case-sensitive lookup of the extension,
then a lookup of its ASCII-lower-cased form, returning the empty string
when neither is registered. -/
def goMimeTypeByExtension (ext : List Char) : List Char :=
  match lookupStr ext goMimeBuiltin with
  | some t => t
  | none =>
    match lookupStr (ext.map asciiLower) goMimeBuiltin with
    | some t => t
    | none => []

/-- A parsed URL, restricted to the three fields the reverse-proxy
director reads and writes: scheme, host and path. -/
structure GoUrl where
  scheme : List Char
  host : List Char
  path : List Char
deriving DecidableEq

/-- Helper for `goUrlParse`: split off the scheme at the first `://`. -/
def schemeSplit : List Char → Option (List Char × List Char)
  | [] => none
  | ':' :: '/' :: '/' :: rest => some ([], rest)
  | c :: rest =>
    match schemeSplit rest with
    | none => none
    | some (a, b) => some (c :: a, b)

/-- Helper for `goUrlParse`: split host from path at the first `/`. -/
def hostSplit : List Char → List Char × List Char
  | [] => ([], [])
  | c :: rest =>
    if c = '/' then ([], c :: rest)
    else
      let (h, p) := hostSplit rest
      (c :: h, p)

/-- Simplified model of Go `net/url.Parse` covering the shape the program
is used with: an absolute URL `scheme://host[/path...]` yields its
scheme, host and path components (query and fragment are not separated
out, and strings without `://` are not modelled and map to `none`,
whereas Go would parse them as relative URLs). Theorems about the proxy
destination are conditional on this parse succeeding. -/
def goUrlParse (s : List Char) : Option GoUrl :=
  match schemeSplit s with
  | none => none
  | some (sch, rest) =>
    let (h, p) := hostSplit rest
    some ⟨sch, h, p⟩

/-- The director installed by `reverseProxy`: overwrite the request URL's
scheme and host with the upstream's and prepend the upstream URL's path
to the request path by plain string concatenation. -/
def reverseProxyDirector (destUrl reqUrl : GoUrl) : GoUrl :=
  { scheme := destUrl.scheme, host := destUrl.host
  , path := destUrl.path ++ reqUrl.path }

/-- A filesystem entry: a directory or a regular file with its bytes. -/
inductive FsEntry
  | dir
  | file (content : List Char)
deriving DecidableEq

/-- A filesystem snapshot: an association list from absolute paths to
entries. Paths not listed do not exist (`os.Stat`/`os.Open` fail). -/
abbrev Fs := List (List Char × FsEntry)

/-- `os.Stat`/`os.Open` against a filesystem snapshot: the entry at the
path, or `none` when the call fails. -/
def lookupFs (fs : Fs) (p : List Char) : Option FsEntry :=
  match fs with
  | [] => none
  | (k, e) :: rest => if k = p then some e else lookupFs rest p

/-- An HTTP response as the handlers build it: status code, the
content-type header when the handler sets one, and the body bytes. -/
structure Resp where
  status : Nat
  contentType : Option (List Char)
  body : List Char
deriving DecidableEq

/-- Go `http.Error(w, msg, code)`: plain-text content type, the message
plus a newline as body, and the given status code. -/
def httpError (msg : List Char) (code : Nat) : Resp :=
  ⟨code, some (str "text/plain; charset=utf-8"), msg ++ ['\n']⟩

/-- `NotFoundFileHandler.ServeHTTP`: open the configured file afresh and
stream it; on open failure write the diagnostic `unable to get 404 page`,
on copy failure (modelled by the path naming a directory, whose open
succeeds but whose read fails) write `unable to send 404 page`. No
`WriteHeader` call is made, so every branch responds with status 200 and
no explicit content-type header. -/
def notFoundFileServe (fs : Fs) (filePath : List Char) : Resp :=
  match lookupFs fs filePath with
  | none => ⟨200, none, str "unable to get 404 page"⟩
  | some (.file c) => ⟨200, none, c⟩
  | some .dir => ⟨200, none, str "unable to send 404 page"⟩

/-- The `filesystemHandler` state: the root directory (made absolute by
`newFSHandler` via `filepath.Abs`) and the optional wired-in not-found
fallback, carried as the fallback handler's configured file path. -/
structure FsHandler where
  path : List Char
  notFoundHandler : Option (List Char)
deriving DecidableEq

/-- Strip exactly one leading `/` if present (the `strings.HasPrefix` /
`uri[1:]` step of `filesystemHandler.ServeHTTP`). -/
def stripOneSlash : List Char → List Char
  | '/' :: rest => rest
  | s => s

/-- Steps 1-2 of the serve algorithm: take the request's raw request URI,
strip one leading separator, substitute the `./` directory-root marker
for an empty remainder, join onto the handler root, clean, and make
absolute (`filepath.Join`, `path.Clean`, `filepath.Abs` in the source). -/
def resolvePath (cwd : List Char) (f : FsHandler) (requestURI : List Char) : List Char :=
  let uri := stripOneSlash requestURI
  let uri := if uri = [] then str "./" else uri
  goFilepathAbs cwd (goPathClean (goFilepathJoin [f.path, str "/", uri]))

/-- The path-traversal guard: `strings.HasPrefix(absFilePath, f.path)`,
a plain string-prefix test of the handler root against the normalized
absolute path. -/
def traversalGuardPasses (f : FsHandler) (absFilePath : List Char) : Bool :=
  f.path.isPrefixOf absFilePath

/-- Go's `Request.RequestURI` for a request with the given URL path and
optional raw query: the path, then `?` and the query when one is
present. -/
def mkRequestURI (path : List Char) (query : Option (List Char)) : List Char :=
  match query with
  | none => path
  | some q => path ++ '?' :: q

/-- `filesystemHandler.ServeHTTP`, returning the response together with
the list of paths the handler passes to `os.Stat`/`os.Open` (in order,
including the fallback handler's file when it is invoked). Guard failure
answers 404 before touching the filesystem; stat failure and open failure
delegate to the fallback when one is wired, else answer 404; a directory
gets `/index.html` appended after stat; a successful read answers 200
with the content type looked up from `"." + filepath.Ext(path)`. Reading
an opened directory fails, giving the 500 branch. -/
def serveHTTP (cwd : List Char) (f : FsHandler) (fs : Fs) (requestURI : List Char) :
    Resp × List (List Char) :=
  let absFilePath := resolvePath cwd f requestURI
  if traversalGuardPasses f absFilePath then
    match lookupFs fs absFilePath with
    | none =>
      match f.notFoundHandler with
      | none =>
        (httpError (str "404 - Not found (not found handler missing)") 404, [absFilePath])
      | some nfp => (notFoundFileServe fs nfp, [absFilePath, nfp])
    | some entry =>
      let target := match entry with
        | .dir => absFilePath ++ str "/index.html"
        | .file _ => absFilePath
      match lookupFs fs target with
      | none =>
        match f.notFoundHandler with
        | none => (httpError (str "404 - Not found") 404, [absFilePath, target])
        | some nfp => (notFoundFileServe fs nfp, [absFilePath, target, nfp])
      | some .dir =>
        (httpError (str "Internal server error") 500, [absFilePath, target])
      | some (.file content) =>
        (⟨200, some (goMimeTypeByExtension ('.' :: goFilepathExt target)), content⟩,
          [absFilePath, target])
  else (httpError (str "404 - Not found") 404, [])

/-- A destination handler as built by `parseDest`: a reverse proxy with
its parsed upstream URL, a static filesystem handler with its absolutized
root, or a not-found file handler with its file path (kept verbatim). -/
inductive Handler
  | proxy (upstream : GoUrl)
  | static (root : List Char)
  | notFoundFile (filePath : List Char)
deriving DecidableEq

/-- A parsed endpoint: mount point and destination handler. -/
structure Endpoint where
  mountPoint : List Char
  destination : Handler
deriving DecidableEq

/-- Outcome of a Go computation that may return an error or panic:
`panicked` models a runtime panic (here, out-of-range slice indexing),
`err` a returned error, `ok` a successful value. -/
inductive ParseResult (α : Type)
  | panicked
  | err (msg : List Char)
  | ok (a : α)
deriving DecidableEq

/-- `Server.parseDest`: split after the first `=` (indexing `split[1]` of
a one-element result panics when `=` is absent), recover the kind by
deleting that `=`, and dispatch: `proxy` parses the argument as a URL,
`file` builds a filesystem handler whose root is `filepath.Abs` of the
argument, `404` builds a not-found file handler from the argument
verbatim; any other kind is an `unknown type` error. -/
def parseDest (cwd dest : List Char) : ParseResult Handler :=
  match splitAfterFirst '=' dest with
  | none => .panicked
  | some (withEq, argument) =>
    let typeName := replaceFirst '=' withEq
    if typeName = str "proxy" then
      match goUrlParse argument with
      | none => .err (str "unable to parse proxy")
      | some u => .ok (.proxy u)
    else if typeName = str "file" then .ok (.static (goFilepathAbs cwd argument))
    else if typeName = str "404" then .ok (.notFoundFile argument)
    else .err (str "unknown type " ++ typeName)

/-- `Server.parseEndpoint`: split after the first `:` (indexing
`split[1]` panics when `:` is absent), recover the mount point by
deleting that `:`, and parse the remainder as the destination. -/
def parseEndpoint (cwd e : List Char) : ParseResult Endpoint :=
  match splitAfterFirst ':' e with
  | none => .panicked
  | some (withColon, rest) =>
    let source := replaceFirst ':' withColon
    match parseDest cwd rest with
    | .panicked => .panicked
    | .err m => .err m
    | .ok d => .ok ⟨source, d⟩

/-- `New`: parse each endpoint string in order, stopping at the first
error (wrapped as `unable to parse endpoint`) or panic, and append the
parsed endpoints to the server's slice in declaration order. -/
def goNew (cwd : List Char) : List (List Char) → ParseResult (List Endpoint)
  | [] => .ok []
  | e :: rest =>
    match parseEndpoint cwd e with
    | .panicked => .panicked
    | .err m => .err (str "unable to parse endpoint: " ++ m)
    | .ok ep =>
      match goNew cwd rest with
      | .panicked => .panicked
      | .err m => .err m
      | .ok eps => .ok (ep :: eps)

end EsbuildWebserver

namespace EsbuildWebserver

example : goPathClean (str "/srv/dist//../../etc/passwd") = str "/etc/passwd" := by decide

example : goPathClean (str "/srv/dist//./") = str "/srv/dist" := by decide

example : goPathClean (str "a/../../b") = str "../b" := by decide

example : goPathClean (str "/..") = str "/" := by decide

example : goFilepathExt (str "/srv/index.html") = str ".html" := by decide

example : goMimeTypeByExtension (str "..html") = [] := by decide

example : goMimeTypeByExtension (str ".HTML") = str "text/html; charset=utf-8" := by decide

example :
    parseEndpoint (str "/w") (str "/api:proxy=http://127.0.0.1:8080") =
      .ok ⟨str "/api", .proxy ⟨str "http", str "127.0.0.1:8080", []⟩⟩ := by decide

example : parseEndpoint (str "/w") (str "nocolon") = .panicked := by decide

example : parseEndpoint (str "/w") (str "/api:filedist") = .panicked := by decide

example :
    parseEndpoint (str "/w") (str "/:file=./dist") =
      .ok ⟨str "/", .static (str "/w/dist")⟩ := by decide

example :
    serveHTTP (str "/w") ⟨str "/srv/dist", none⟩
      [(str "/etc/passwd", .file (str "root"))] (str "/../../etc/passwd") =
      (httpError (str "404 - Not found") 404, []) := by decide

example :
    serveHTTP (str "/w") ⟨str "/r", none⟩
      [(str "/r", .dir), (str "/r/index.html", .file (str "hi"))] (str "/") =
      (⟨200, some [], str "hi"⟩, [str "/r", str "/r/index.html"]) := by decide

theorem splitAfterFirst_of_not_mem (sep : Char) (s : List Char) (h : sep ∉ s) :
    splitAfterFirst sep s = none := by
  induction s with
  | nil => rfl
  | cons c rest ih =>
    simp only [List.mem_cons, not_or] at h
    simp only [splitAfterFirst, if_neg (Ne.symm h.1), ih h.2]

theorem splitAfterFirst_append (sep : Char) (pre post : List Char) (h : sep ∉ pre) :
    splitAfterFirst sep (pre ++ sep :: post) = some (pre ++ [sep], post) := by
  induction pre with
  | nil => simp [splitAfterFirst]
  | cons c rest ih =>
    simp only [List.mem_cons, not_or] at h
    simp [splitAfterFirst, Ne.symm h.1, ih h.2]

theorem replaceFirst_append (t : Char) (pre : List Char) (h : t ∉ pre) :
    replaceFirst t (pre ++ [t]) = pre := by
  induction pre with
  | nil => simp [replaceFirst]
  | cons c rest ih =>
    simp only [List.mem_cons, not_or] at h
    simp [replaceFirst, Ne.symm h.1, ih h.2]

theorem parseEndpoint_split (cwd mp rest : List Char) (h : ':' ∉ mp) :
    parseEndpoint cwd (mp ++ ':' :: rest) =
      match parseDest cwd rest with
      | .panicked => .panicked
      | .err m => .err m
      | .ok d => .ok ⟨mp, d⟩ := by
  have h1 := splitAfterFirst_append ':' mp rest h
  have h2 := replaceFirst_append ':' mp h
  simp [parseEndpoint, h1, h2]

theorem parseDest_split (cwd kind arg : List Char) (h : '=' ∉ kind) :
    parseDest cwd (kind ++ '=' :: arg) =
      (if kind = str "proxy" then
        match goUrlParse arg with
        | none => ParseResult.err (str "unable to parse proxy")
        | some u => ParseResult.ok (.proxy u)
      else if kind = str "file" then ParseResult.ok (.static (goFilepathAbs cwd arg))
      else if kind = str "404" then ParseResult.ok (.notFoundFile arg)
      else ParseResult.err (str "unknown type " ++ kind)) := by
  have h1 := splitAfterFirst_append '=' kind arg h
  have h2 := replaceFirst_append '=' kind h
  simp [parseDest, h1, h2]

theorem parseDest_kind_404 (cwd arg : List Char) :
    parseDest cwd (str "404" ++ '=' :: arg) = .ok (.notFoundFile arg) := by
  rw [parseDest_split cwd (str "404") arg (by decide),
    if_neg (by decide : ¬ str "404" = str "proxy"),
    if_neg (by decide : ¬ str "404" = str "file"),
    if_pos (rfl : str "404" = str "404")]

theorem parseDest_kind_file (cwd arg : List Char) :
    parseDest cwd (str "file" ++ '=' :: arg) = .ok (.static (goFilepathAbs cwd arg)) := by
  rw [parseDest_split cwd (str "file") arg (by decide),
    if_neg (by decide : ¬ str "file" = str "proxy"),
    if_pos (rfl : str "file" = str "file")]

theorem parseDest_kind_proxy (cwd arg : List Char) :
    parseDest cwd (str "proxy" ++ '=' :: arg) =
      (match goUrlParse arg with
        | none => ParseResult.err (str "unable to parse proxy")
        | some u => ParseResult.ok (.proxy u)) := by
  rw [parseDest_split cwd (str "proxy") arg (by decide),
    if_pos (rfl : str "proxy" = str "proxy")]

/-- C1: whenever the normalized absolute path computed in steps 1-2 of
the serve algorithm does not have the handler root as a string prefix,
the filesystem handler answers the generic 404 error and performs no
stat or open at all (the accessed-path trace is empty); in particular a
traversal request such as `/../../etc/passwd` against root `/srv/dist`
is answered 404 without touching the sentinel `/etc/passwd`, even when a
fallback handler is wired. -/
theorem guard_failure_serves_404_without_fs_access :
    (∀ cwd f fs u, traversalGuardPasses f (resolvePath cwd f u) = false →
        serveHTTP cwd f fs u = (httpError (str "404 - Not found") 404, [])) ∧
    serveHTTP (str "/w") ⟨str "/srv/dist", some (str "/srv/404.html")⟩
        [(str "/etc/passwd", .file (str "sentinel")),
         (str "/srv/404.html", .file (str "nf"))]
        (str "/../../etc/passwd") =
      (httpError (str "404 - Not found") 404, []) := by
  constructor
  · intro cwd f fs u h
    simp [serveHTTP, h]
  · decide

/-- Witness for C1 at a concrete input: root `/a/b`, request `/../../z`
normalizes to `/z`, which fails the guard, and the handler answers 404
with no filesystem access. -/
theorem guard_failure_serves_404_without_fs_access_witness :
    traversalGuardPasses ⟨str "/a/b", none⟩
        (resolvePath (str "/w") ⟨str "/a/b", none⟩ (str "/../../z")) = false ∧
    serveHTTP (str "/w") ⟨str "/a/b", none⟩ [] (str "/../../z") =
      (httpError (str "404 - Not found") 404, []) :=
  ⟨by decide,
    guard_failure_serves_404_without_fs_access.1 (str "/w") ⟨str "/a/b", none⟩ []
      (str "/../../z") (by decide)⟩

/-- C2: an endpoint string with no `:` at all, or whose remainder after
the first `:` has no `=`, makes the parser panic (Go indexes `split[1]`
of a one-element `SplitAfterN` result) instead of returning a
configuration error. -/
theorem parse_missing_separator_panics :
    (∀ cwd e, ':' ∉ e → parseEndpoint cwd e = .panicked) ∧
    (∀ cwd mp rest, ':' ∉ mp → '=' ∉ rest →
        parseEndpoint cwd (mp ++ ':' :: rest) = .panicked) := by
  constructor
  · intro cwd e h
    simp [parseEndpoint, splitAfterFirst_of_not_mem ':' e h]
  · intro cwd mp rest hmp hrest
    rw [parseEndpoint_split cwd mp rest hmp]
    have hd : parseDest cwd rest = .panicked := by
      simp [parseDest, splitAfterFirst_of_not_mem '=' rest hrest]
    rw [hd]

/-- Witness for C2 at concrete inputs: `dist` has no `:` and
`/api:filedist` has no `=` after the mount point; both panic. -/
theorem parse_missing_separator_panics_witness :
    (':' ∉ str "dist") ∧ parseEndpoint (str "/w") (str "dist") = .panicked ∧
    parseEndpoint (str "/w") (str "/api" ++ ':' :: str "filedist") = .panicked :=
  ⟨by decide,
    parse_missing_separator_panics.1 (str "/w") (str "dist") (by decide),
    parse_missing_separator_panics.2 (str "/w") (str "/api") (str "filedist")
      (by decide) (by decide)⟩

/-- C4 (failing input): serving `/index.html` from a root that contains
it succeeds with status 200 but sets the content-type header to the
empty string, because the source passes `"." + filepath.Ext(path)` — a
doubled dot, `..html` — to `mime.TypeByExtension`, while the MIME type
actually registered for the `.html` extension is
`text/html; charset=utf-8`. -/
theorem served_content_type_is_empty_not_html :
    (serveHTTP (str "/w") ⟨str "/srv", none⟩
        [(str "/srv/index.html", .file (str "hello"))] (str "/index.html")).1 =
      ⟨200, some [], str "hello"⟩ ∧
    goFilepathExt (str "/srv/index.html") = str ".html" ∧
    goMimeTypeByExtension ('.' :: goFilepathExt (str "/srv/index.html")) = [] ∧
    goMimeTypeByExtension (str ".html") = str "text/html; charset=utf-8" := by
  decide

/-- C5 (counterexample): the upstream `http://h:p/base` with an incoming
request path `/x` produces the outbound path `/base/x` — the request
path's own leading slash is kept by plain concatenation — not the
claimed `/basex`. -/
theorem director_base_slash_x_is_not_basex :
    (reverseProxyDirector ⟨str "http", str "h:p", str "/base"⟩
        ⟨str "http", str "client", str "/x"⟩).path = str "/base/x" ∧
    (reverseProxyDirector ⟨str "http", str "h:p", str "/base"⟩
        ⟨str "http", str "client", str "/x"⟩).path ≠ str "/basex" := by
  decide

/-- C5 (amended): the director rewrites every request to the upstream's
scheme and host and to the plain string concatenation of the upstream
path and the request path, inserting no separator of its own; upstream
path `/base` with request path `/x` therefore yields `/base/x` (the
slash comes from the request path), and a request path `x` without a
leading slash would yield `/basex`. -/
theorem director_rewrites_scheme_host_and_concatenates_path :
    (∀ destUrl reqUrl : GoUrl,
        reverseProxyDirector destUrl reqUrl =
          ⟨destUrl.scheme, destUrl.host, destUrl.path ++ reqUrl.path⟩) ∧
    (reverseProxyDirector ⟨str "http", str "h:p", str "/base"⟩
        ⟨str "http", str "client", str "/x"⟩).path = str "/base/x" ∧
    (reverseProxyDirector ⟨str "http", str "h:p", str "/base"⟩
        ⟨str "http", str "client", str "x"⟩).path = str "/basex" :=
  ⟨fun _ _ => rfl, by decide, by decide⟩

/-- C3: when the resolved path passes the traversal guard but the stat
(or the subsequent open of the directory index) fails, a configured
fallback handles the entire request — with a readable fallback file the
response is exactly its bytes with status 200 — and with no fallback the
response is a generic 404. -/
theorem stat_or_open_failure_uses_fallback :
    ∀ cwd f fs u,
      traversalGuardPasses f (resolvePath cwd f u) = true →
      (lookupFs fs (resolvePath cwd f u) = none ∨
        (lookupFs fs (resolvePath cwd f u) = some .dir ∧
          lookupFs fs (resolvePath cwd f u ++ str "/index.html") = none)) →
      ((f.notFoundHandler = none → (serveHTTP cwd f fs u).1.status = 404) ∧
        ∀ nfp, f.notFoundHandler = some nfp →
          (serveHTTP cwd f fs u).1 = notFoundFileServe fs nfp ∧
          ∀ c, lookupFs fs nfp = some (.file c) →
            (serveHTTP cwd f fs u).1 = ⟨200, none, c⟩) := by
  intro cwd f fs u hg hfail
  rcases hfail with h1 | ⟨h2, h3⟩
  · refine ⟨?_, ?_⟩
    · intro hnf
      simp [serveHTTP, hg, h1, hnf, httpError]
    · intro nfp hnf
      refine ⟨?_, ?_⟩
      · simp [serveHTTP, hg, h1, hnf]
      · intro c hc
        simp [serveHTTP, hg, h1, hnf, notFoundFileServe, hc]
  · refine ⟨?_, ?_⟩
    · intro hnf
      simp [serveHTTP, hg, h2, h3, hnf, httpError]
    · intro nfp hnf
      refine ⟨?_, ?_⟩
      · simp [serveHTTP, hg, h2, h3, hnf]
      · intro c hc
        simp [serveHTTP, hg, h2, h3, hnf, notFoundFileServe, hc]

/-- Witness for C3 at a concrete input: root `/r` with fallback file
`/nf.html` holding `custom`; requesting the missing `/missing.js` passes
the guard, fails the stat and is answered with the fallback's bytes and
status 200. -/
theorem stat_or_open_failure_uses_fallback_witness :
    traversalGuardPasses ⟨str "/r", some (str "/nf.html")⟩
        (resolvePath (str "/w") ⟨str "/r", some (str "/nf.html")⟩ (str "/missing.js")) =
      true ∧
    lookupFs [(str "/nf.html", FsEntry.file (str "custom"))]
        (resolvePath (str "/w") ⟨str "/r", some (str "/nf.html")⟩ (str "/missing.js")) =
      none ∧
    (serveHTTP (str "/w") ⟨str "/r", some (str "/nf.html")⟩
        [(str "/nf.html", FsEntry.file (str "custom"))] (str "/missing.js")).1 =
      ⟨200, none, str "custom"⟩ := by
  refine ⟨by decide, by decide, ?_⟩
  exact ((stat_or_open_failure_uses_fallback (str "/w") ⟨str "/r", some (str "/nf.html")⟩
      [(str "/nf.html", FsEntry.file (str "custom"))] (str "/missing.js")
      (by decide) (Or.inl (by decide))).2 (str "/nf.html") rfl).2 (str "custom") (by decide)

/-- C6: the constructed server keeps its parsed endpoints as a list in
declaration order: a successful `New` yields exactly one endpoint per
input string, at the same index, so two endpoints sharing a mount point
are both retained in order and a later declaration never replaces an
earlier one. -/
theorem new_preserves_declaration_order :
    ∀ cwd ss eps, goNew cwd ss = .ok eps →
      eps.length = ss.length ∧
      ∀ i (hs : i < ss.length) (he : i < eps.length),
        parseEndpoint cwd (ss.get ⟨i, hs⟩) = .ok (eps.get ⟨i, he⟩) := by
  intro cwd ss
  induction ss with
  | nil =>
    intro eps h
    simp [goNew] at h
    subst h
    refine ⟨rfl, ?_⟩
    intro i hs _
    simp at hs
  | cons e rest ih =>
    intro eps h
    cases hp : parseEndpoint cwd e with
    | panicked => simp [goNew, hp] at h
    | err m => simp [goNew, hp] at h
    | ok ep =>
      cases hr : goNew cwd rest with
      | panicked => simp [goNew, hp, hr] at h
      | err m => simp [goNew, hp, hr] at h
      | ok eps' =>
        simp [goNew, hp, hr] at h
        subst h
        obtain ⟨hlen, hget⟩ := ih eps' hr
        refine ⟨by simp [hlen], ?_⟩
        intro i hs he
        cases i with
        | zero => exact hp
        | succ j =>
          have hs' : j < rest.length := by simpa using hs
          have he' : j < eps'.length := by simpa using he
          exact hget j hs' he'

/-- Witness for C6: two endpoints with the same mount point `/a` are
both retained, in declaration order, and the second one still
corresponds to the second input string. -/
theorem new_preserves_declaration_order_witness :
    goNew (str "/w") [str "/a:404=x.html", str "/a:404=y.html"] =
      .ok [⟨str "/a", .notFoundFile (str "x.html")⟩,
        ⟨str "/a", .notFoundFile (str "y.html")⟩] ∧
    parseEndpoint (str "/w") (str "/a:404=y.html") =
      .ok ⟨str "/a", .notFoundFile (str "y.html")⟩ := by
  have h : goNew (str "/w") [str "/a:404=x.html", str "/a:404=y.html"] =
      .ok [⟨str "/a", .notFoundFile (str "x.html")⟩,
        ⟨str "/a", .notFoundFile (str "y.html")⟩] := by decide
  have key := new_preserves_declaration_order (str "/w")
    [str "/a:404=x.html", str "/a:404=y.html"]
    [⟨str "/a", .notFoundFile (str "x.html")⟩,
      ⟨str "/a", .notFoundFile (str "y.html")⟩] h
  refine ⟨h, ?_⟩
  have h1 := key.2 1 (by decide) (by decide)
  simpa using h1

/-- C7 (counterexample): resolution reads Go's `RequestURI`, which
includes the query string, not the URL path alone: against root `/r`
containing `index.html`, the request with path `/` and no query is
served with status 200, while the request with the same path `/` and
query `x` resolves `/r/?x`, misses, and is answered 404. -/
theorem resolution_depends_on_query_string :
    (serveHTTP (str "/w") ⟨str "/r", none⟩
        [(str "/r", FsEntry.dir), (str "/r/index.html", FsEntry.file (str "hi"))]
        (mkRequestURI (str "/") none)).1.status = 200 ∧
    (serveHTTP (str "/w") ⟨str "/r", none⟩
        [(str "/r", FsEntry.dir), (str "/r/index.html", FsEntry.file (str "hi"))]
        (mkRequestURI (str "/") (some (str "x")))).1.status = 404 := by
  decide

/-- C7 (amended): file resolution uses the request's raw request URI
(path plus any query string): exactly one leading separator is stripped
when present, an empty remainder becomes the `./` directory-root marker,
and the result is joined onto the root, cleaned and made absolute; a
request for `/` against a root containing `index.html` is answered with
that file's contents and status 200. -/
theorem resolution_strips_one_slash_and_marks_root :
    (∀ cwd f u, resolvePath cwd f u =
        goFilepathAbs cwd (goPathClean (goFilepathJoin
          [f.path, str "/",
            if stripOneSlash u = [] then str "./" else stripOneSlash u]))) ∧
    (serveHTTP (str "/w") ⟨str "/r", none⟩
        [(str "/r", FsEntry.dir), (str "/r/index.html", FsEntry.file (str "hi"))]
        (str "/")).1.status = 200 ∧
    (serveHTTP (str "/w") ⟨str "/r", none⟩
        [(str "/r", FsEntry.dir), (str "/r/index.html", FsEntry.file (str "hi"))]
        (str "/")).1.body = str "hi" :=
  ⟨fun _ _ _ => rfl, by decide, by decide⟩

/-- C8: a well-formed endpoint string is split at its first `:` and
first `=` only; the argument reaches the destination constructor
verbatim even when it contains further `:` or `=` characters; parsing
succeeds for the kinds `404` and `file` unconditionally and for `proxy`
whenever the upstream URL parses, and is a pure function of the input. -/
theorem parse_valid_endpoint_splits_once :
    ∀ cwd mp arg, ':' ∉ mp →
      parseEndpoint cwd (mp ++ str ":404=" ++ arg) = .ok ⟨mp, .notFoundFile arg⟩ ∧
      parseEndpoint cwd (mp ++ str ":file=" ++ arg) =
        .ok ⟨mp, .static (goFilepathAbs cwd arg)⟩ ∧
      (∀ u, goUrlParse arg = some u →
        parseEndpoint cwd (mp ++ str ":proxy=" ++ arg) = .ok ⟨mp, .proxy u⟩) := by
  intro cwd mp arg hmp
  refine ⟨?_, ?_, ?_⟩
  · have e1 : mp ++ str ":404=" ++ arg = mp ++ ':' :: (str "404" ++ '=' :: arg) := by
      rw [(by decide : str ":404=" = ':' :: (str "404" ++ ['=']))]
      simp
    rw [e1, parseEndpoint_split cwd mp _ hmp, parseDest_kind_404 cwd arg]
  · have e1 : mp ++ str ":file=" ++ arg = mp ++ ':' :: (str "file" ++ '=' :: arg) := by
      rw [(by decide : str ":file=" = ':' :: (str "file" ++ ['=']))]
      simp
    rw [e1, parseEndpoint_split cwd mp _ hmp, parseDest_kind_file cwd arg]
  · intro u hu
    have e1 : mp ++ str ":proxy=" ++ arg = mp ++ ':' :: (str "proxy" ++ '=' :: arg) := by
      rw [(by decide : str ":proxy=" = ':' :: (str "proxy" ++ ['=']))]
      simp
    rw [e1, parseEndpoint_split cwd mp _ hmp, parseDest_kind_proxy cwd arg, hu]

/-- Witness for C8: mount `/api` with a `404` argument containing both
`:` and `=`, and a `proxy` argument URL containing both, are carried
through unmodified. -/
theorem parse_valid_endpoint_splits_once_witness :
    (':' ∉ str "/api") ∧
    parseEndpoint (str "/w") (str "/api" ++ str ":404=" ++ str "a:b=c.html") =
      .ok ⟨str "/api", .notFoundFile (str "a:b=c.html")⟩ ∧
    goUrlParse (str "http://127.0.0.1:8080/x=1") =
      some ⟨str "http", str "127.0.0.1:8080", str "/x=1"⟩ ∧
    parseEndpoint (str "/w")
        (str "/api" ++ str ":proxy=" ++ str "http://127.0.0.1:8080/x=1") =
      .ok ⟨str "/api", .proxy ⟨str "http", str "127.0.0.1:8080", str "/x=1"⟩⟩ := by
  have hmp : ':' ∉ str "/api" := by decide
  have key := parse_valid_endpoint_splits_once (str "/w") (str "/api")
    (str "a:b=c.html") hmp
  have key2 := parse_valid_endpoint_splits_once (str "/w") (str "/api")
    (str "http://127.0.0.1:8080/x=1") hmp
  exact ⟨hmp, key.1, by decide, key2.2.2 _ (by decide)⟩

/-- C9: the not-found file handler's response is computed from the
filesystem state at each invocation (no caching — a changed file changes
the served body), always carries status 200, and on open failure or copy
failure answers the respective plain-text diagnostic, never a 500 and
never a delegation to any further fallback. -/
theorem notFound_handler_reads_fresh_and_recovers :
    ∀ fs filePath,
      (notFoundFileServe fs filePath).status = 200 ∧
      (lookupFs fs filePath = none →
        (notFoundFileServe fs filePath).body = str "unable to get 404 page") ∧
      (∀ c, lookupFs fs filePath = some (.file c) →
        (notFoundFileServe fs filePath).body = c) ∧
      (lookupFs fs filePath = some .dir →
        (notFoundFileServe fs filePath).body = str "unable to send 404 page") := by
  intro fs p
  refine ⟨?_, ?_, ?_, ?_⟩
  · rcases h : lookupFs fs p with _ | e
    · simp [notFoundFileServe, h]
    · cases e <;> simp [notFoundFileServe, h]
  · intro h
    simp [notFoundFileServe, h]
  · intro c h
    simp [notFoundFileServe, h]
  · intro h
    simp [notFoundFileServe, h]

/-- Witness for C9: a file edit between invocations changes the body
(`old` then `new`), and with the file absent the handler still answers
200 with the `unable to get 404 page` diagnostic. -/
theorem notFound_handler_reads_fresh_and_recovers_witness :
    (notFoundFileServe [(str "/p", FsEntry.file (str "old"))] (str "/p")).body =
      str "old" ∧
    (notFoundFileServe [(str "/p", FsEntry.file (str "new"))] (str "/p")).body =
      str "new" ∧
    (notFoundFileServe [] (str "/p")).status = 200 ∧
    (notFoundFileServe [] (str "/p")).body = str "unable to get 404 page" := by
  refine ⟨?_, ?_, ?_, ?_⟩
  · exact (notFound_handler_reads_fresh_and_recovers
      [(str "/p", FsEntry.file (str "old"))] (str "/p")).2.2.1 (str "old") (by decide)
  · exact (notFound_handler_reads_fresh_and_recovers
      [(str "/p", FsEntry.file (str "new"))] (str "/p")).2.2.1 (str "new") (by decide)
  · exact (notFound_handler_reads_fresh_and_recovers [] (str "/p")).1
  · exact (notFound_handler_reads_fresh_and_recovers [] (str "/p")).2.1 (by decide)

/-- C10: the traversal guard is exactly the plain string-prefix test of
the root against the normalized absolute path, with no separator
boundary required after the root: against root `/srv/dist`, the request
`/../dist-secret/f` normalizes to `/srv/dist-secret/f`, which lies
outside the root directory (it neither equals the root nor extends it
with a separator), yet passes the guard and is served with status 200. -/
theorem guard_accepts_sibling_directory_escape :
    (∀ f p, traversalGuardPasses f p = f.path.isPrefixOf p) ∧
    resolvePath (str "/w") ⟨str "/srv/dist", none⟩ (str "/../dist-secret/f") =
      str "/srv/dist-secret/f" ∧
    traversalGuardPasses ⟨str "/srv/dist", none⟩ (str "/srv/dist-secret/f") = true ∧
    (str "/srv/dist/").isPrefixOf (str "/srv/dist-secret/f") = false ∧
    str "/srv/dist-secret/f" ≠ str "/srv/dist" ∧
    (serveHTTP (str "/w") ⟨str "/srv/dist", none⟩
        [(str "/srv/dist-secret/f", FsEntry.file (str "secret"))]
        (str "/../dist-secret/f")).1 = ⟨200, some [], str "secret"⟩ :=
  ⟨fun _ _ => rfl, by decide, by decide, by decide, by decide, by decide⟩

end EsbuildWebserver
